import Mathlib

/-!
A shallow embedding of the session/concurrency core of the scraping service
(source: `src/modify_v1.py`, with the parallel `SessionManager` in
`src/tiktok_scrap_api.py`).  Time values (`time.monotonic()`) are modelled as
rationals; the browser resource (`FBScrape`) is opaque and modelled by an
identifier; fallible operations return `Except` or an explicit outcome type.
-/

/-- `to_safe_name` (modify_v1.py:90-92): cut everything from the first `'@'`
when one is present, otherwise return the name unchanged
(`username_full.split("@", 1)[0] if "@" in username_full else username_full`). -/
def to_safe_name (username_full : String) : String :=
  if username_full.toList.contains (Char.ofNat 0x40) then
    String.mk (username_full.toList.takeWhile (fun c => c ≠ Char.ofNat 0x40))
  else username_full

/-- State of one `UserSession` (modify_v1.py:1724-1739).  `fb` is the opaque
`FBScrape` handle (`none` = no browser open), `lockHeld` is
`sess.lock.locked()`, `last_used` is the monotonic timestamp written by
`touch()`.  The dynamic attributes `_scrape_job_counter`, `_sink_hits` and
`_webhook_queue_len` default to `0` via `getattr(..., 0)` in the source. -/
structure UserSession where
  username_full : String
  username_safe : String
  fb : Option Nat
  lockHeld : Bool
  last_used : ℚ
  closed : Bool
  scrape_job_counter : Nat
  sink_hits : Nat
  webhook_queue_len : Nat
deriving DecidableEq

/-- `UserSession.__init__` (modify_v1.py:1730-1739): fresh session for a raw
identity, browser not yet opened, lock free, `last_used = time.monotonic()`
(the `now` argument), not closed; the dynamic counters are absent, i.e. `0`. -/
def UserSession.init (username_full : String) (now : ℚ) : UserSession :=
  { username_full := username_full
    username_safe := to_safe_name username_full
    fb := none
    lockHeld := false
    last_used := now
    closed := false
    scrape_job_counter := 0
    sink_hits := 0
    webhook_queue_len := 0 }

/-- `UserSession.close` (modify_v1.py:1783-1796).  `fbCloseFails` says whether
`await self.fb.close()` raises; the `except` clause only logs
(`err` + `record_error_json`) and the `finally` clause always sets
`self.fb = None` and `self.closed = True`, so the function never propagates
an exception — hence the return type `Except Unit UserSession` with every
branch returning `.ok`.  An already-closed session returns at once. -/
def UserSession.close (s : UserSession) (fbCloseFails : Bool) : Except Unit UserSession :=
  if s.closed then .ok s
  else
    let _ := fbCloseFails
    .ok { s with fb := none, closed := true }

/-- Lookup in an association-list model of a Python `dict` keyed by strings
(`self.sessions.get(k)`). -/
def look {α : Type} : List (String × α) → String → Option α
  | [], _ => none
  | (k, v) :: rest, key => if key = k then some v else look rest key

/-- `dict` assignment `d[k] = v`: replace the value at an existing key,
otherwise append a new entry. -/
def dinsert {α : Type} : List (String × α) → String → α → List (String × α)
  | [], k, v => [(k, v)]
  | (k', v') :: rest, k, v =>
      if k' = k then (k, v) :: rest else (k', v') :: dinsert rest k v

/-- `dict.pop(k, None)`: drop the entry at key `k`. -/
def dpop {α : Type} (reg : List (String × α)) (k : String) : List (String × α) :=
  reg.filter (fun p => p.1 ≠ k)

/-- `SessionManager.get_or_create` (modify_v1.py:1809-1815): return the
registered session for the raw key `username_full`; if the key is absent or
the registered session is closed, install and return a fresh `UserSession`.
The registry is keyed by the *raw* identity string, not its safe form. -/
def get_or_create (reg : List (String × UserSession)) (username_full : String)
    (now : ℚ) : UserSession × List (String × UserSession) :=
  match look reg username_full with
  | some sess =>
      if sess.closed then
        let s := UserSession.init username_full now
        (s, dinsert reg username_full s)
      else (sess, reg)
  | none =>
      let s := UserSession.init username_full now
      (s, dinsert reg username_full s)

/-- Response of the `DELETE /sessions/{username_full}` endpoint. -/
inductive CloseSessionResp where
  | okMissing
  | busyError
  | okClosed
deriving DecidableEq

/-- `close_session` (modify_v1.py:2339-2357): missing session → ok message;
session whose lock is held → `HTTPException(400)` raised immediately, nothing
mutated and nothing deferred; otherwise `await sess.close()` then
`sessions.pop(username_full, None)`.  (The endpoint has no force parameter;
forced closure exists only on the separate delete-profile endpoint.) -/
def close_session (reg : List (String × UserSession)) (username_full : String) :
    CloseSessionResp × List (String × UserSession) :=
  match look reg username_full with
  | none => (.okMissing, reg)
  | some sess =>
      if sess.lockHeld then (.busyError, reg)
      else (.okClosed, dpop reg username_full)

/-- `SessionManager.run_for_user` (modify_v1.py:1817-1825) as a sequential
state transformer on the session it resolves: after acquiring `sess.lock` it
calls `sess.touch()` (write `last_used := t_acquire`), runs the job, and the
`finally` clause calls `sess.touch()` again (write `last_used := t_release`)
before the lock is released. -/
def run_for_user (s : UserSession) (t_acquire t_release : ℚ)
    (job : UserSession → UserSession) : UserSession :=
  { job { s with last_used := t_acquire } with last_used := t_release }

/-- `SessionManager.run_for_sys` (modify_v1.py:1827-1834): acquires the same
`sess.lock` but never calls `sess.touch()` — the body is
`try: return await coro_func(sess) finally: pass` — so the session state is
exactly what the job leaves behind; `last_used` is not written. -/
def run_for_sys (s : UserSession) (job : UserSession → UserSession) : UserSession :=
  job s

/-- Immediate response of `POST /scrape-posts-webhook` together with the
updated session (modify_v1.py:2632-2636 and 2730-2740):
`running := sess.lock.locked()`, `queue_len := getattr(sess, "_webhook_queue_len", 0)`,
`position := queue_len + (1 if running else 0) + 1`,
then `_webhook_queue_len := queue_len + 1`; the response reports
`status = "queued" if position > 1 else "running"`. -/
def scrape_posts_webhook_submit (sess : UserSession) :
    (Nat × String) × UserSession :=
  let running := sess.lockHeld
  let queue_len := sess.webhook_queue_len
  let position := queue_len + (if running then 1 else 0) + 1
  ((position, if position > 1 then "queued" else "running"),
   { sess with webhook_queue_len := queue_len + 1 })

/-- `RECHROME_POLICY` configuration string; `every_n` carries
`RECHROME_EVERY_N` at the call sites. -/
inductive RechromePolicy where
  | never
  | before_each
  | every_n
deriving DecidableEq

/-- The restart decision of one foreground job (modify_v1.py:2218-2229, same
block at 2643-2648): with the post-increment counter value `cnt`,
`need_restart` is true for `before_each`; for `every_n` when
`RECHROME_EVERY_N > 0` and `cnt % RECHROME_EVERY_N == 0`; otherwise false. -/
def needRestart (policy : RechromePolicy) (everyN : Nat) (cnt : Nat) : Bool :=
  match policy with
  | .before_each => true
  | .every_n => decide (0 < everyN) && decide (cnt % everyN = 0)
  | .never => false

/-- One foreground job's recycle step (modify_v1.py:2219-2227): the counter
`_scrape_job_counter` is incremented first, unconditionally — before the
scrape work and regardless of its outcome — and the restart decision is taken
on the incremented value.  Returns (new counter, recycled?). -/
def scrapeJobRecycleStep (policy : RechromePolicy) (everyN : Nat)
    (counter : Nat) : Nat × Bool :=
  let cnt := counter + 1
  (cnt, needRestart policy everyN cnt)

/-- Run `k` consecutive foreground jobs on one session, collecting the
recycle decision of each job in order. -/
def runScrapeJobs (policy : RechromePolicy) (everyN : Nat) :
    Nat → Nat → Nat × List Bool
  | counter, 0 => (counter, [])
  | counter, k + 1 =>
      let step := scrapeJobRecycleStep policy everyN counter
      let rest := runScrapeJobs policy everyN step.1 k
      (rest.1, step.2 :: rest.2)

/-- Python `round(x, 1)` on the exact rational value: banker's rounding
(round half to even) of `x * 10`, divided by 10. -/
def pyRoundHalfEven (x : ℚ) : ℤ :=
  let f := ⌊x⌋
  let r := x - (f : ℚ)
  if r < 1 / 2 then f
  else if 1 / 2 < r then f + 1
  else if 2 ∣ f then f else f + 1

/-- Display rounding `round(remain, 1)` used by `randomtask`'s cooldown
response. -/
def pyRound1 (x : ℚ) : ℚ := (pyRoundHalfEven (x * 10) : ℚ) / 10

/-- Outcome of one `randomtask` (warm/"sink" job) attempt. -/
inductive SinkOutcome where
  | cooldownHit (next_in_sec : ℚ)
  | executed (ok : Bool)
deriving DecidableEq

/-- The cooldown gate and completion bookkeeping of `randomtask`
(modify_v1.py:1244-1251 and 1307-1308).  `sink_last_run` is
`getattr(fb, "_sink_last_run", 0.0)` (`0` = never completed; the value is
truthiness-tested).  If a warm job completed within `cooldown_sec`, return
`{"ok": False, "reason": "cooldown", "next_in_sec": round(remain, 1)}` with
`remain = max(0.0, cooldown_sec - (now_mono - last_run))` and do not execute.
Otherwise the warm operation runs (`execOk` abstracts its success); only a
successful run writes `_sink_last_run = time.monotonic()` (the completion
time `t_complete`); a failed run is caught and reported, leaving
`_sink_last_run` unchanged.  Returns (outcome, new `_sink_last_run`). -/
def randomtask (sink_last_run now_mono cooldown_sec : ℚ) (execOk : Bool)
    (t_complete : ℚ) : SinkOutcome × ℚ :=
  if sink_last_run ≠ 0 ∧ now_mono - sink_last_run < cooldown_sec then
    (.cooldownHit (pyRound1 (max 0 (cooldown_sec - (now_mono - sink_last_run)))),
     sink_last_run)
  else if execOk then (.executed true, t_complete)
  else (.executed false, sink_last_run)

/-- One HTTP POST attempt made by `_post_webhook`. -/
inductive WebhookDelivery where
  | sent (status : Nat)
  | failedLogged
deriving DecidableEq

/-- `_post_webhook` (modify_v1.py:2590-2598): no attempt when the url is
empty (`if not url: return`); otherwise exactly one `client.post`.  `net` is
`some status` when the POST returned (any status code — non-2xx is only
logged), `none` when it raised (network error) — the `except` clause logs a
warning and returns, so a failed delivery is never retried.  The returned
list holds every POST attempt actually made. -/
def post_webhook (url : String) (net : Option Nat) : List WebhookDelivery :=
  if url = "" then []
  else
    match net with
    | some status => [.sent status]
    | none => [.failedLogged]

/-- How the background webhook job finished (modify_v1.py:2637-2720):
the not-logged-in early return, the `FB_SESSION_LOST` abort, any other
scrape exception, the success path, or an exception reaching the outer
`except` (e.g. from `ensure_fb` or `save_json`). -/
inductive BgJobOutcome where
  | notLoggedIn
  | sessionLost
  | scrapeError (e : String)
  | success
  | internalError (e : String)
deriving DecidableEq

/-- The `ok` flag and error field of one outbound callback payload. -/
structure CallbackPayload where
  ok : Bool
  error : Option String
deriving DecidableEq

/-- The callback payloads handed to `_post_webhook` by `_bg_job`
(modify_v1.py:2651-2717), in order: every terminal path posts exactly one
payload — `ok: false` with an error message on the not-logged-in check, on
`FB_SESSION_LOST`, on any other scrape exception and on an outer
exception, and `ok: true` on success. -/
def bg_job_callbacks (outcome : BgJobOutcome) : List CallbackPayload :=
  match outcome with
  | .notLoggedIn =>
      [{ ok := false, error := some "not_logged_in" }]
  | .sessionLost =>
      [{ ok := false, error := some "FB_SESSION_LOST" }]
  | .scrapeError e => [{ ok := false, error := some e }]
  | .success => [{ ok := true, error := none }]
  | .internalError e => [{ ok := false, error := some e }]

/-- The selection pass of one janitor tick (modify_v1.py:1844-1876): walk the
registry snapshot; a closed session is scheduled for removal (`continue`),
otherwise a session idle beyond `idle_timeout_sec` whose lock is free is
scheduled.  (The sink-trigger branch in between, lines 1852-1872, only
spawns an asynchronous warm task and mutates no session or registry state
inside the tick, so it does not appear in this state transformer.) -/
def janitorToClose (now idle_timeout_sec : ℚ)
    (reg : List (String × UserSession)) : List String :=
  reg.filterMap (fun p =>
    if p.2.closed then some p.1
    else if now - p.2.last_used > idle_timeout_sec ∧ p.2.lockHeld = false then
      some p.1
    else none)

/-- The closing pass of one janitor tick (modify_v1.py:1879-1884): for each
scheduled key, re-fetch the session and only if it exists, is not closed and
its lock is (still) free, call `sess.close()` and pop it.  The accumulator
carries the registry and the keys whose sessions were actually closed. -/
def janitorCloseOne (acc : List (String × UserSession) × List String)
    (k : String) : List (String × UserSession) × List String :=
  match look acc.1 k with
  | none => acc
  | some sess =>
      if sess.closed = false ∧ sess.lockHeld = false then
        (dpop acc.1 k, acc.2 ++ [k])
      else acc

/-- One full janitor tick (modify_v1.py:1843-1884): select, then close and
remove.  Returns the new registry and the identities whose sessions the tick
closed. -/
def janitorTick (now idle_timeout_sec : ℚ)
    (reg : List (String × UserSession)) :
    List (String × UserSession) × List String :=
  (janitorToClose now idle_timeout_sec reg).foldl janitorCloseOne (reg, [])

namespace Conc

/-!
A small-step model of the admission/serialization layer: jobs entering
through `SessionManager.run_for_user` (modify_v1.py:1817-1825) and
`SessionManager.run_for_sys` (modify_v1.py:1827-1834; the variant in
tiktok_scrap_api.py:1080-1087 is the same shape).  Both functions do
`sess = self.get_or_create(username_full)` and then `async with sess.lock:`,
so a job resolves its session (and hence its lock) at admission and runs only
while holding that lock.  Sessions are identified by the id of their
`asyncio.Lock`; `get_or_create` installs a fresh session (with a fresh,
unlocked lock) on first use of an identity and returns the registered one
afterwards.  No transition closes a session: this models the two run
functions themselves, in which sessions are never closed or replaced.
-/

/-- Lifecycle of one admitted job: waiting on the lock, running under it,
finished. -/
inductive Phase where
  | waiting
  | running
  | done
deriving DecidableEq

/-- One admitted job: its raw identity, the session (lock) id it resolved at
admission, whether it came through `run_for_sys` (else `run_for_user`), and
its phase. -/
structure CJob where
  ident : String
  sid : Nat
  sysPath : Bool
  phase : Phase
deriving DecidableEq

/-- Global state: the registry (identity → session id), the lock table
(session id → job currently holding the lock) and the job table. -/
structure CState where
  reg : String → Option Nat
  holder : Nat → Option Nat
  jobs : Nat → Option CJob

/-- Pointwise update of a partial map. -/
def supd {α β : Type} [DecidableEq α] (f : α → Option β) (k : α)
    (v : Option β) : α → Option β :=
  fun x => if x = k then v else f x

/-- Empty system: no sessions, no held locks, no jobs. -/
def initState : CState :=
  { reg := fun _ => none, holder := fun _ => none, jobs := fun _ => none }

/-- The transitions of the admission layer. -/
inductive Step : CState → CState → Prop where
  /-- A job enters `run_for_user`/`run_for_sys` for an identity already in
  the registry: `get_or_create` returns the registered session, so the job
  records that session id and starts waiting on its lock. -/
  | enter (s : CState) (j : Nat) (ident : String) (sysPath : Bool) (sid : Nat)
      (hj : s.jobs j = none)
      (hreg : s.reg ident = some sid) :
      Step s { s with
        jobs := supd s.jobs j (some ⟨ident, sid, sysPath, .waiting⟩) }
  /-- A job enters for an unregistered identity: `get_or_create` installs a
  fresh session whose lock is new (held by nobody) and registers it under the
  raw identity; the job waits on that lock. -/
  | enterNew (s : CState) (j : Nat) (ident : String) (sysPath : Bool) (sid : Nat)
      (hj : s.jobs j = none)
      (habsent : s.reg ident = none)
      (hfresh : ∀ i, s.reg i ≠ some sid)
      (hfreeLock : s.holder sid = none) :
      Step s { reg := supd s.reg ident (some sid)
               holder := s.holder
               jobs := supd s.jobs j (some ⟨ident, sid, sysPath, .waiting⟩) }
  /-- `async with sess.lock:` grants the lock to a waiting job only when no
  job holds it; the job starts running its `coro_func`. -/
  | acquire (s : CState) (j : Nat) (jb : CJob)
      (hj : s.jobs j = some jb)
      (hw : jb.phase = .waiting)
      (hfree : s.holder jb.sid = none) :
      Step s { s with
        holder := supd s.holder jb.sid (some j)
        jobs := supd s.jobs j (some { jb with phase := .running }) }
  /-- Leaving the `async with` block releases the lock; the job is done. -/
  | release (s : CState) (j : Nat) (jb : CJob)
      (hj : s.jobs j = some jb)
      (hr : jb.phase = .running) :
      Step s { s with
        holder := supd s.holder jb.sid none
        jobs := supd s.jobs j (some { jb with phase := .done }) }

/-- States reachable from the empty system. -/
inductive Reachable : CState → Prop where
  | init : Reachable initState
  | step {s t : CState} : Reachable s → Step s t → Reachable t

/-- The inductive invariant: (a) every job's recorded session id is the one
the registry holds for its identity; (b) a running job holds its session's
lock; (c) a held lock is held by a running job of that session. -/
def Inv (s : CState) : Prop :=
  (∀ j jb, s.jobs j = some jb → s.reg jb.ident = some jb.sid)
  ∧ (∀ j jb, s.jobs j = some jb → jb.phase = .running → s.holder jb.sid = some j)
  ∧ (∀ sid j, s.holder sid = some j →
      ∃ jb, s.jobs j = some jb ∧ jb.sid = sid ∧ jb.phase = .running)

theorem inv_init : Inv initState := by
  refine ⟨?_, ?_, ?_⟩ <;> intro j jb h <;> simp [initState] at h

theorem inv_step {s t : CState} (hs : Inv s) (st : Step s t) : Inv t := by
  obtain ⟨ha, hb, hc⟩ := hs
  cases st with
  | enter j ident sysPath sid hj hreg =>
      refine ⟨?_, ?_, ?_⟩
      · intro j' jb' h
        by_cases hjj : j' = j
        · subst hjj
          simp [supd] at h
          subst h
          exact hreg
        · simp [supd, hjj] at h
          exact ha j' jb' h
      · intro j' jb' h hrun
        by_cases hjj : j' = j
        · subst hjj
          simp [supd] at h
          subst h
          simp at hrun
        · simp [supd, hjj] at h
          exact hb j' jb' h hrun
      · intro sid' j' h
        obtain ⟨jb', hjb', hsid', hrun'⟩ := hc sid' j' h
        by_cases hjj : j' = j
        · subst hjj
          rw [hj] at hjb'
          cases hjb'
        · exact ⟨jb', by simp [supd, hjj]; exact hjb', hsid', hrun'⟩
  | enterNew j ident sysPath sid hj habsent hfresh hfreeLock =>
      refine ⟨?_, ?_, ?_⟩
      · intro j' jb' h
        by_cases hjj : j' = j
        · subst hjj
          simp [supd] at h
          subst h
          simp [supd]
        · simp [supd, hjj] at h
          have := ha j' jb' h
          have hne : jb'.ident ≠ ident := by
            intro hi
            rw [hi, habsent] at this
            cases this
          simp [supd, hne]
          exact this
      · intro j' jb' h hrun
        by_cases hjj : j' = j
        · subst hjj
          simp [supd] at h
          subst h
          simp at hrun
        · simp [supd, hjj] at h
          exact hb j' jb' h hrun
      · intro sid' j' h
        obtain ⟨jb', hjb', hsid', hrun'⟩ := hc sid' j' h
        by_cases hjj : j' = j
        · subst hjj
          rw [hj] at hjb'
          cases hjb'
        · exact ⟨jb', by simp [supd, hjj]; exact hjb', hsid', hrun'⟩
  | acquire j jb hj hw hfree =>
      refine ⟨?_, ?_, ?_⟩
      · intro j' jb' h
        by_cases hjj : j' = j
        · subst hjj
          simp [supd] at h
          subst h
          exact ha _ jb hj
        · simp [supd, hjj] at h
          exact ha j' jb' h
      · intro j' jb' h hrun
        by_cases hjj : j' = j
        · subst hjj
          simp [supd] at h
          subst h
          simp [supd]
        · simp [supd, hjj] at h
          have hold := hb j' jb' h hrun
          have hne : jb'.sid ≠ jb.sid := by
            intro he
            rw [he, hfree] at hold
            cases hold
          simp [supd, hne]
          exact hold
      · intro sid' j' h
        by_cases hss : sid' = jb.sid
        · subst hss
          simp [supd] at h
          subst h
          exact ⟨{ jb with phase := .running }, by simp [supd], rfl, rfl⟩
        · simp [supd, hss] at h
          obtain ⟨jb', hjb', hsid', hrun'⟩ := hc sid' j' h
          by_cases hjj : j' = j
          · subst hjj
            rw [hj] at hjb'
            cases hjb'
            rw [hw] at hrun'
            cases hrun'
          · exact ⟨jb', by simp [supd, hjj]; exact hjb', hsid', hrun'⟩
  | release j jb hj hr =>
      refine ⟨?_, ?_, ?_⟩
      · intro j' jb' h
        by_cases hjj : j' = j
        · subst hjj
          simp [supd] at h
          subst h
          exact ha _ jb hj
        · simp [supd, hjj] at h
          exact ha j' jb' h
      · intro j' jb' h hrun
        by_cases hjj : j' = j
        · subst hjj
          simp [supd] at h
          subst h
          simp at hrun
        · simp [supd, hjj] at h
          have hold := hb j' jb' h hrun
          have hne : jb'.sid ≠ jb.sid := by
            intro he
            have holdj := hb j jb hj hr
            rw [he] at hold
            rw [hold] at holdj
            cases holdj
            exact hjj rfl
          simp [supd, hne]
          exact hold
      · intro sid' j' h
        by_cases hss : sid' = jb.sid
        · subst hss
          simp [supd] at h
        · simp [supd, hss] at h
          obtain ⟨jb', hjb', hsid', hrun'⟩ := hc sid' j' h
          by_cases hjj : j' = j
          · subst hjj
            rw [hj] at hjb'
            cases hjb'
            exact absurd rfl (by rw [← hsid'] at hss; exact hss)
          · exact ⟨jb', by simp [supd, hjj]; exact hjb', hsid', hrun'⟩

theorem inv_reachable {s : CState} (h : Reachable s) : Inv s := by
  induction h with
  | init => exact inv_init
  | step _ st ih => exact inv_step ih st

end Conc

theorem look_dpop_ne {α : Type} (reg : List (String × α)) (k k' : String)
    (h : k ≠ k') : look (dpop reg k') k = look reg k := by
  induction reg with
  | nil => rfl
  | cons p rest ih =>
      by_cases hp : p.1 = k'
      · have h1 : dpop (p :: rest) k' = dpop rest k' := by
          simp [dpop, List.filter_cons, hp]
        have hk : ¬ k = p.1 := by rw [hp]; exact h
        have h2 : look (p :: rest) k = look rest k := by
          simp [look, hk]
        rw [h1, h2]
        exact ih
      · have h1 : dpop (p :: rest) k' = p :: dpop rest k' := by
          simp [dpop, List.filter_cons, hp]
        rw [h1]
        by_cases hk : k = p.1
        · simp [look, hk]
        · simp [look, hk]
          exact ih

theorem janitor_fold_locked (k : String) (s : UserSession)
    (hheld : s.lockHeld = true) (ks : List String) :
    ∀ acc : List (String × UserSession) × List String,
      look acc.1 k = some s → k ∉ acc.2 →
      look ((ks.foldl janitorCloseOne acc).1) k = some s
      ∧ k ∉ (ks.foldl janitorCloseOne acc).2 := by
  induction ks with
  | nil =>
      intro acc h1 h2
      exact ⟨h1, h2⟩
  | cons k' ks ih =>
      intro acc h1 h2
      simp only [List.foldl_cons]
      apply ih
      · by_cases hk : k' = k
        · subst hk
          simp [janitorCloseOne, h1, hheld]
        · unfold janitorCloseOne
          cases hl : look acc.1 k' with
          | none => exact h1
          | some sess =>
              by_cases hg : sess.closed = false ∧ sess.lockHeld = false
              · simp [hg]
                rw [look_dpop_ne _ _ _ (fun he => hk he.symm)]
                exact h1
              · simp [hg]
                exact h1
      · by_cases hk : k' = k
        · subst hk
          simp [janitorCloseOne, h1, hheld]
          exact h2
        · unfold janitorCloseOne
          cases hl : look acc.1 k' with
          | none => exact h2
          | some sess =>
              by_cases hg : sess.closed = false ∧ sess.lockHeld = false
              · simp [hg, h2]
                exact fun he => hk he.symm
              · simp [hg]
                exact h2

/-- C1: in the admission model, every job admitted through `run_for_user` or
`run_for_sys` for one identity resolves the same session (hence the same
lock); no two jobs for the same identity are running at the same time in any
reachable state; and two running jobs for distinct identities do coexist in
some reachable state, so distinct identities are not mutually excluded. -/
theorem C1_per_identity_mutual_exclusion :
    (∀ s, Conc.Reachable s → ∀ j1 j2 jb1 jb2,
        s.jobs j1 = some jb1 → s.jobs j2 = some jb2 →
        jb1.ident = jb2.ident → jb1.sid = jb2.sid)
    ∧ (∀ s, Conc.Reachable s → ∀ j1 j2 jb1 jb2,
        s.jobs j1 = some jb1 → s.jobs j2 = some jb2 →
        jb1.ident = jb2.ident →
        jb1.phase = Conc.Phase.running → jb2.phase = Conc.Phase.running →
        j1 = j2)
    ∧ (∃ s, Conc.Reachable s ∧ ∃ j1 j2 jb1 jb2,
        s.jobs j1 = some jb1 ∧ s.jobs j2 = some jb2 ∧ j1 ≠ j2 ∧
        jb1.ident ≠ jb2.ident ∧
        jb1.phase = Conc.Phase.running ∧ jb2.phase = Conc.Phase.running) := by
  have same_sid : ∀ s, Conc.Reachable s → ∀ j1 j2 jb1 jb2,
      s.jobs j1 = some jb1 → s.jobs j2 = some jb2 →
      jb1.ident = jb2.ident → jb1.sid = jb2.sid := by
    intro s hs j1 j2 jb1 jb2 h1 h2 hid
    obtain ⟨ha, _, _⟩ := Conc.inv_reachable hs
    have e1 := ha j1 jb1 h1
    have e2 := ha j2 jb2 h2
    rw [hid] at e1
    rw [e1] at e2
    exact Option.some.inj e2
  refine ⟨same_sid, ?_, ?_⟩
  · intro s hs j1 j2 jb1 jb2 h1 h2 hid hr1 hr2
    obtain ⟨_, hb, _⟩ := Conc.inv_reachable hs
    have hsid := same_sid s hs j1 j2 jb1 jb2 h1 h2 hid
    have e1 := hb j1 jb1 h1 hr1
    have e2 := hb j2 jb2 h2 hr2
    rw [hsid] at e1
    rw [e1] at e2
    exact Option.some.inj e2
  · have r0 : Conc.Reachable Conc.initState := .init
    have r1 := Conc.Reachable.step r0
      (Conc.Step.enterNew Conc.initState 0 "a" false 0 rfl rfl
        (by intro i; simp [Conc.initState]) rfl)
    have r2 := Conc.Reachable.step r1
      (Conc.Step.enterNew _ 1 "b" true 1 rfl rfl
        (by intro i
            by_cases hi : i = "a" <;>
              simp [Conc.supd, Conc.initState, hi]) rfl)
    have r3 := Conc.Reachable.step r2
      (Conc.Step.acquire _ 0 ⟨"a", 0, false, Conc.Phase.waiting⟩ rfl rfl rfl)
    have r4 := Conc.Reachable.step r3
      (Conc.Step.acquire _ 1 ⟨"b", 1, true, Conc.Phase.waiting⟩ rfl rfl rfl)
    exact ⟨_, r4, 0, 1, _, _, rfl, rfl, by decide, by decide, rfl, rfl⟩

/-- C2: a session whose gate is held at the janitor's check is neither
closed nor evicted by that tick: it stays in the registry with unchanged
state (browser still referenced, `closed` still false, `last_used` intact)
and its identity is not among the sessions the tick closed — whatever `now`
is, i.e. even when `now - last_used` exceeds the hard idle timeout. -/
theorem C2_no_eviction_under_work (now idle_timeout_sec : ℚ)
    (reg : List (String × UserSession)) (k : String) (s : UserSession)
    (hlook : look reg k = some s) (hheld : s.lockHeld = true) :
    look (janitorTick now idle_timeout_sec reg).1 k = some s
    ∧ k ∉ (janitorTick now idle_timeout_sec reg).2 := by
  unfold janitorTick
  exact janitor_fold_locked k s hheld
    (janitorToClose now idle_timeout_sec reg) (reg, []) hlook (by simp)

/-- Witness for C2: a session idle for 100 seconds against a 5-second hard
timeout, but with its gate held, survives the tick untouched. -/
theorem C2_no_eviction_under_work_witness :
    look (janitorTick 100 5
        [("u", { UserSession.init "u" 0 with lockHeld := true })]).1 "u"
      = some { UserSession.init "u" 0 with lockHeld := true }
    ∧ "u" ∉ (janitorTick 100 5
        [("u", { UserSession.init "u" 0 with lockHeld := true })]).2 :=
  C2_no_eviction_under_work 100 5
    [("u", { UserSession.init "u" 0 with lockHeld := true })] "u"
    { UserSession.init "u" 0 with lockHeld := true } rfl rfl

/-- C3 counterexample: one async job pending and currently running
(`_webhook_queue_len = 1`, gate held).  The claim's formula gives
`queue_position = pending + 1 = 2`; the code answers `3`, because the
running job is counted both in `_webhook_queue_len` and through
`lock.locked()`. -/
theorem C3_counterexample :
    (scrape_posts_webhook_submit
        { UserSession.init "u" 0 with webhook_queue_len := 1, lockHeld := true }).1.1
      = 3
    ∧ (scrape_posts_webhook_submit
        { UserSession.init "u" 0 with webhook_queue_len := 1, lockHeld := true }).1.1
      ≠ 1 + 1 := by
  decide

/-- C3 (amended): the immediate response carries
`queue_position = pending + (1 if the gate is held else 0) + 1`, with status
`"running"` exactly when nothing was pending and the gate was free; the
pending counter is incremented by the submission; and three submissions in
quick succession — before any scheduled job starts, so the gate stays
free — get positions 1 (running), 2, 3 in order. -/
theorem C3_amended_queue_position (s : UserSession) :
    (scrape_posts_webhook_submit s).1.1
      = s.webhook_queue_len + (if s.lockHeld then 1 else 0) + 1
    ∧ ((scrape_posts_webhook_submit s).1.2 = "running"
        ↔ s.webhook_queue_len = 0 ∧ s.lockHeld = false)
    ∧ (scrape_posts_webhook_submit s).2.webhook_queue_len
      = s.webhook_queue_len + 1
    ∧ (scrape_posts_webhook_submit (UserSession.init "u" 0)).1
      = (1, "running")
    ∧ (scrape_posts_webhook_submit
        (scrape_posts_webhook_submit (UserSession.init "u" 0)).2).1
      = (2, "queued")
    ∧ (scrape_posts_webhook_submit (scrape_posts_webhook_submit
        (scrape_posts_webhook_submit (UserSession.init "u" 0)).2).2).1
      = (3, "queued") := by
  refine ⟨rfl, ?_, rfl, by decide, by decide, by decide⟩
  cases hL : s.lockHeld <;>
    cases hq : s.webhook_queue_len <;>
      simp [scrape_posts_webhook_submit, hL, hq]

/-- C4 counterexample: the raw identities `"a@x"` and `"a@y"` normalize to
the same safe form `"a"`, yet after two `get_or_create` calls the registry
holds two distinct live (non-closed) sessions, one per raw key — the
registry is keyed by the raw string, not the safe form. -/
theorem C4_counterexample :
    look ((get_or_create ((get_or_create [] "a@x" 0).2) "a@y" 0).2) "a@x"
      = some (UserSession.init "a@x" 0)
    ∧ look ((get_or_create ((get_or_create [] "a@x" 0).2) "a@y" 0).2) "a@y"
      = some (UserSession.init "a@y" 0)
    ∧ (UserSession.init "a@x" 0).closed = false
    ∧ (UserSession.init "a@y" 0).closed = false
    ∧ UserSession.init "a@x" 0 ≠ UserSession.init "a@y" 0
    ∧ to_safe_name "a@x" = to_safe_name "a@y" := by
  decide

/-- C4 (amended): `get_or_create` keys sessions by the raw identity string:
for a fixed raw identity it returns the registered live session unchanged,
and installs a fresh one exactly when the key is absent or the registered
session is closed.  (Raw identities normalizing to the same safe form but
differing as strings get distinct sessions — see the counterexample.) -/
theorem C4_amended_get_or_create (reg : List (String × UserSession))
    (u : String) (now : ℚ) (s : UserSession) :
    (look reg u = some s → s.closed = false →
      get_or_create reg u now = (s, reg))
    ∧ (look reg u = none →
      get_or_create reg u now
        = (UserSession.init u now, dinsert reg u (UserSession.init u now)))
    ∧ (look reg u = some s → s.closed = true →
      get_or_create reg u now
        = (UserSession.init u now, dinsert reg u (UserSession.init u now))) := by
  refine ⟨?_, ?_, ?_⟩
  · intro hl hc
    simp [get_or_create, hl, hc]
  · intro hl
    simp [get_or_create, hl]
  · intro hl hc
    simp [get_or_create, hl, hc]

/-- Witness for C4 (amended): looking up a registered live session returns
it and leaves the registry untouched. -/
theorem C4_amended_get_or_create_witness :
    get_or_create [("a", UserSession.init "a" 0)] "a" 5
      = (UserSession.init "a" 0, [("a", UserSession.init "a" 0)]) :=
  (C4_amended_get_or_create [("a", UserSession.init "a" 0)] "a" 5
    (UserSession.init "a" 0)).1 rfl rfl

/-- C5: recycle cadence.  For `every_n(N)` with `N > 0` a foreground job
recycles exactly when the incremented per-session counter is divisible by
`N`; `never` never recycles and `before_each` always does; the counter
advances by one per job regardless of outcome; and nine consecutive jobs
under `every_n(3)` recycle exactly on jobs 3, 6 and 9 — three events. -/
theorem C5_recycle_cadence (everyN counter : Nat) (h : 0 < everyN) :
    ((scrapeJobRecycleStep RechromePolicy.every_n everyN counter).2 = true
      ↔ (counter + 1) % everyN = 0)
    ∧ (scrapeJobRecycleStep RechromePolicy.never everyN counter).2 = false
    ∧ (scrapeJobRecycleStep RechromePolicy.before_each everyN counter).2 = true
    ∧ (scrapeJobRecycleStep RechromePolicy.every_n everyN counter).1
      = counter + 1
    ∧ (runScrapeJobs RechromePolicy.every_n 3 0 9).2
      = [false, false, true, false, false, true, false, false, true]
    ∧ (runScrapeJobs RechromePolicy.every_n 3 0 9).2.count true = 3 := by
  refine ⟨?_, rfl, rfl, rfl, by decide, by decide⟩
  simp [scrapeJobRecycleStep, needRestart, h]

/-- Witness for C5 at `N = 3`, counter 2 (i.e. the third job). -/
theorem C5_recycle_cadence_witness :
    ((scrapeJobRecycleStep RechromePolicy.every_n 3 2).2 = true
      ↔ (2 + 1) % 3 = 0)
    ∧ (scrapeJobRecycleStep RechromePolicy.never 3 2).2 = false
    ∧ (scrapeJobRecycleStep RechromePolicy.before_each 3 2).2 = true
    ∧ (scrapeJobRecycleStep RechromePolicy.every_n 3 2).1 = 2 + 1
    ∧ (runScrapeJobs RechromePolicy.every_n 3 0 9).2
      = [false, false, true, false, false, true, false, false, true]
    ∧ (runScrapeJobs RechromePolicy.every_n 3 0 9).2.count true = 3 :=
  C5_recycle_cadence 3 2 (by decide)

/-- C6: a warm-job attempt within `cooldown_sec` of the last completed warm
job (`_sink_last_run = last_run > 0`) does not execute: it returns the
cooldown result carrying `cooldown_sec - elapsed` (up to the source's
`round(·, 1)` display rounding) and leaves `_sink_last_run` unchanged.  An
attempt once the window has elapsed, or when no warm job ever completed
(`_sink_last_run = 0`), proceeds past the cooldown check and executes. -/
theorem C6_warm_cooldown (last_run now_mono cooldown_sec : ℚ)
    (execOk : Bool) (t_complete : ℚ) (hpos : 0 < last_run) :
    (now_mono - last_run < cooldown_sec →
      randomtask last_run now_mono cooldown_sec execOk t_complete
        = (SinkOutcome.cooldownHit
            (pyRound1 (cooldown_sec - (now_mono - last_run))), last_run))
    ∧ (cooldown_sec ≤ now_mono - last_run →
      (randomtask last_run now_mono cooldown_sec execOk t_complete).1
        = SinkOutcome.executed execOk)
    ∧ (randomtask 0 now_mono cooldown_sec execOk t_complete).1
      = SinkOutcome.executed execOk := by
  refine ⟨?_, ?_, ?_⟩
  · intro hlt
    have hne : last_run ≠ 0 := ne_of_gt hpos
    have hmax : max 0 (cooldown_sec - (now_mono - last_run))
        = cooldown_sec - (now_mono - last_run) :=
      max_eq_right (le_of_lt (by linarith))
    simp [randomtask, hne, hlt, hmax]
  · intro hge
    have hnotlt : ¬ now_mono - last_run < cooldown_sec := not_lt.mpr hge
    cases execOk <;> simp [randomtask, hnotlt]
  · cases execOk <;> simp [randomtask]

/-- Witness for C6: last completion at t=100, attempt at t=700 with an
1800-second cooldown: the attempt is refused with 1200 seconds remaining
and `_sink_last_run` stays 100. -/
theorem C6_warm_cooldown_witness :
    randomtask 100 700 1800 true 701
      = (SinkOutcome.cooldownHit (pyRound1 (1800 - (700 - 100))), 100) :=
  (C6_warm_cooldown 100 700 1800 true 701 (by norm_num)).1 (by norm_num)

/-- C7 counterexample: a system-path (warm) job admitted for a session whose
`last_used` is 0 leaves `last_used` at 0 — `run_for_sys` never calls
`touch()` — whereas a user-path job run between the same instants 5 and 7
leaves `last_used = 7`.  The claim that *every* admitted job updates
`last_active` at acquisition and release is false on the system path. -/
theorem C7_counterexample :
    (run_for_sys (UserSession.init "alice" 0) (fun s => s)).last_used = 0
    ∧ (run_for_user (UserSession.init "alice" 0) 5 7 (fun s => s)).last_used = 7
    ∧ (0 : ℚ) ≠ 7 := by
  refine ⟨rfl, rfl, by norm_num⟩

/-- C7 (amended): only the user path touches the activity clock:
`run_for_user` runs the job on the session stamped with the acquisition
time and stamps the release time afterwards, so the final `last_used` is the
release time; `run_for_sys` serializes through the same gate but never
writes `last_used` — if the job leaves it alone, it is exactly the value
from before the job. -/
theorem C7_amended_touch (s : UserSession) (t_acquire t_release : ℚ)
    (job : UserSession → UserSession)
    (hjob : ∀ x, (job x).last_used = x.last_used) :
    (run_for_user s t_acquire t_release job).last_used = t_release
    ∧ run_for_user s t_acquire t_release job
      = { job { s with last_used := t_acquire } with last_used := t_release }
    ∧ (run_for_sys s job).last_used = s.last_used := by
  exact ⟨rfl, rfl, hjob s⟩

/-- Witness for C7 (amended): identity job, acquisition at 5, release at 7. -/
theorem C7_amended_touch_witness :
    (run_for_user (UserSession.init "u" 3) 5 7 (fun x => x)).last_used = 7
    ∧ run_for_user (UserSession.init "u" 3) 5 7 (fun x => x)
      = { (fun (x : UserSession) => x)
            { UserSession.init "u" 3 with last_used := 5 } with last_used := 7 }
    ∧ (run_for_sys (UserSession.init "u" 3) (fun x => x)).last_used
      = (UserSession.init "u" 3).last_used :=
  C7_amended_touch (UserSession.init "u" 3) 5 7 (fun x => x) (fun _ => rfl)

/-- C8: every terminal path of the background webhook job posts exactly one
callback payload, whose `ok` flag is true exactly on success; and
`_post_webhook` makes exactly one HTTP POST attempt for a non-empty url —
also when the attempt fails on the network (`net = none`), i.e. a failed
delivery is logged, never retried. -/
theorem C8_single_callback (outcome : BgJobOutcome) (url : String)
    (net : Option Nat) (h : url ≠ "") :
    (bg_job_callbacks outcome).length = 1
    ∧ (∀ p ∈ bg_job_callbacks outcome,
        (p.ok = true ↔ outcome = BgJobOutcome.success))
    ∧ (post_webhook url net).length = 1
    ∧ (post_webhook url none).length = 1 := by
  refine ⟨?_, ?_, ?_, ?_⟩
  · cases outcome <;> simp [bg_job_callbacks]
  · cases outcome <;> simp [bg_job_callbacks]
  · cases net <;> simp [post_webhook, h]
  · simp [post_webhook, h]

/-- Witness for C8: a successful job with a real callback url whose delivery
attempt hits a network error. -/
theorem C8_single_callback_witness :
    (bg_job_callbacks BgJobOutcome.success).length = 1
    ∧ (∀ p ∈ bg_job_callbacks BgJobOutcome.success,
        (p.ok = true ↔ BgJobOutcome.success = BgJobOutcome.success))
    ∧ (post_webhook "http:cb" (none : Option Nat)).length = 1
    ∧ (post_webhook "http:cb" none).length = 1 :=
  C8_single_callback BgJobOutcome.success "http:cb" none (by decide)

/-- C9: an explicit close-session request for an identity whose gate is held
is answered with the busy error and the registry — including the targeted
session, which is neither closed nor removed — is returned unchanged;
nothing is queued for later. -/
theorem C9_close_busy (reg : List (String × UserSession)) (u : String)
    (s : UserSession) (hlook : look reg u = some s)
    (hheld : s.lockHeld = true) :
    close_session reg u = (CloseSessionResp.busyError, reg) := by
  simp [close_session, hlook, hheld]

/-- Witness for C9: one registered session with its gate held. -/
theorem C9_close_busy_witness :
    close_session [("u", { UserSession.init "u" 0 with lockHeld := true })] "u"
      = (CloseSessionResp.busyError,
          [("u", { UserSession.init "u" 0 with lockHeld := true })]) :=
  C9_close_busy [("u", { UserSession.init "u" 0 with lockHeld := true })] "u"
    { UserSession.init "u" 0 with lockHeld := true } rfl rfl

/-- C10: `UserSession.close` always returns `.ok` — whether or not closing
the browser raises — leaving, on a live session, `fb = none` and
`closed = true`; on an already-closed session it returns the session
unchanged. -/
theorem C10_close_never_raises (s : UserSession) (fbCloseFails : Bool) :
    (s.closed = false →
      UserSession.close s fbCloseFails
        = Except.ok { s with fb := none, closed := true })
    ∧ (s.closed = true →
      UserSession.close s fbCloseFails = Except.ok s)
    ∧ (∃ s2, UserSession.close s fbCloseFails = Except.ok s2
        ∧ s2.closed = true ∧ (s.closed = false → s2.fb = none)) := by
  cases hc : s.closed with
  | false =>
      refine ⟨fun _ => by simp [UserSession.close, hc],
        fun hcon => absurd hcon (by decide), ?_⟩
      exact ⟨{ s with fb := none, closed := true },
        by simp [UserSession.close, hc], rfl, fun _ => rfl⟩
  | true =>
      refine ⟨fun hcon => absurd hcon (by decide),
        fun _ => by simp [UserSession.close, hc], ?_⟩
      exact ⟨s, by simp [UserSession.close, hc], hc,
        fun hcon => absurd hcon (by decide)⟩

/-- Witness for C10: closing a live session (with the browser close
failing) still yields `.ok` with `fb = none` and `closed = true`. -/
theorem C10_close_never_raises_witness :
    UserSession.close (UserSession.init "alice" 0) true
      = Except.ok { UserSession.init "alice" 0 with fb := none, closed := true } :=
  (C10_close_never_raises (UserSession.init "alice" 0) true).1 rfl
